/-
Verification of the external code execution and progress-streaming
subsystem of the CITY-Project repository (src/app.py, src/Code_Bug.py).

The Python source is shallowly embedded: pure helpers become Lean
functions over `String`/`List Char`; the process runners become functions
from the observable behaviour of the spawned subprocess (an explicit
`ProcBehavior` value) to the returned result triple together with a trace
of filesystem/process effects; the background-download/polling machinery
of app.py becomes a small-step transition system over an explicit state
(producer script, two FIFO queues, consumer program counter).
-/
import Mathlib

set_option maxHeartbeats 1000000

/-! ## Python character / string primitives used by the embedded code -/

/-- The whitespace characters Python's `str.strip`/`str.rstrip` remove
(ASCII fragment: space, tab, newline, carriage return, vertical tab,
form feed). -/
def pyIsSpace (c : Char) : Bool :=
  c = ' ' || c = '\t' || c = '\n' || c = '\r' || c = '\x0b' || c = '\x0c'

/-- Characters kept by `sanitize_filename` in app.py:
`c.isalnum() or c in (" ", "-", "_")` (ASCII alphanumerics). -/
def sanitizeKeeps (c : Char) : Bool :=
  c.isAlphanum || c = ' ' || c = '-' || c = '_'

/-- Python `str.rstrip()` on a character list: drop trailing whitespace. -/
def pyRstrip (l : List Char) : List Char :=
  (l.reverse.dropWhile pyIsSpace).reverse

/-- Python `str.strip()` on a character list: drop leading and trailing
whitespace. -/
def pyStripData (l : List Char) : List Char :=
  pyRstrip (l.dropWhile pyIsSpace)

/-- Python `str.strip()` on a `String`. -/
def pyStrip (s : String) : String :=
  ⟨pyStripData s.data⟩

/-- app.py `sanitize_filename`:
`"".join(c for c in name if c.isalnum() or c in (" ", "-", "_")).rstrip()`. -/
def sanitize_filename (name : String) : String :=
  ⟨pyRstrip (name.data.filter sanitizeKeeps)⟩

/-! Basic lemmas about `dropWhile`, used for the sanitizer claims. -/

theorem dropWhile_head_false {p : Char → Bool} :
    ∀ (l : List Char) (c : Char), (l.dropWhile p).head? = some c → p c = false := by
  intro l
  induction l with
  | nil => intro c h; simp [List.dropWhile] at h
  | cons a as ih =>
    intro c h
    by_cases hp : p a
    · rw [List.dropWhile_cons_of_pos hp] at h
      exact ih c h
    · rw [List.dropWhile_cons_of_neg hp] at h
      simp at h
      simp [h ▸ hp]

theorem dropWhile_of_head_false {p : Char → Bool} (l : List Char)
    (h : ∀ c, l.head? = some c → p c = false) : l.dropWhile p = l := by
  cases l with
  | nil => rfl
  | cons a as =>
    have hpa : p a = false := h a rfl
    exact List.dropWhile_cons_of_neg (by simp [hpa])

theorem dropWhile_idem {p : Char → Bool} (l : List Char) :
    (l.dropWhile p).dropWhile p = l.dropWhile p :=
  dropWhile_of_head_false _ (fun c hc => dropWhile_head_false l c hc)

theorem pyRstrip_sublist (l : List Char) : (pyRstrip l).Sublist l := by
  have h1 : (l.reverse.dropWhile pyIsSpace).Sublist l.reverse :=
    List.dropWhile_sublist _
  have h2 := h1.reverse
  simpa [pyRstrip] using h2

theorem pyRstrip_idem (l : List Char) : pyRstrip (pyRstrip l) = pyRstrip l := by
  unfold pyRstrip
  rw [List.reverse_reverse, dropWhile_idem]

theorem pyRstrip_getLast_not_space (l : List Char) (c : Char)
    (h : (pyRstrip l).getLast? = some c) : pyIsSpace c = false := by
  unfold pyRstrip at h
  rw [List.getLast?_reverse] at h
  exact dropWhile_head_false _ _ h

/-- Claim C9: `sanitize_filename` emits only alphanumerics, spaces, hyphens
and underscores, its output has no trailing whitespace (the last character,
when there is one, is not whitespace), and it is idempotent. -/
theorem sanitize_filename_spec (s : String) :
    (∀ c ∈ (sanitize_filename s).data, sanitizeKeeps c = true)
    ∧ (∀ c, (sanitize_filename s).data.getLast? = some c → pyIsSpace c = false)
    ∧ sanitize_filename (sanitize_filename s) = sanitize_filename s := by
  refine ⟨?_, ?_, ?_⟩
  · intro c hc
    have hmem : c ∈ s.data.filter sanitizeKeeps :=
      (pyRstrip_sublist _).subset hc
    exact (List.mem_filter.mp hmem).2
  · intro c hc
    exact pyRstrip_getLast_not_space _ _ hc
  · show sanitize_filename ⟨pyRstrip (s.data.filter sanitizeKeeps)⟩ = _
    unfold sanitize_filename
    have hall : ∀ c ∈ pyRstrip (s.data.filter sanitizeKeeps), sanitizeKeeps c = true := by
      intro c hc
      have hmem : c ∈ s.data.filter sanitizeKeeps := (pyRstrip_sublist _).subset hc
      exact (List.mem_filter.mp hmem).2
    have hfilter :
        (pyRstrip (s.data.filter sanitizeKeeps)).filter sanitizeKeeps
          = pyRstrip (s.data.filter sanitizeKeeps) :=
      List.filter_eq_self.mpr hall
    simp only [hfilter, pyRstrip_idem]

/-! ## Fallback file resolution (app.py lines 42-50 and 224-240) -/

/-- Boolean substring test on character lists; models Python's
`needle in hay` / the glob pattern `*needle*`. -/
def listIsInfix (needle : List Char) : List Char → Bool
  | [] => needle.isEmpty
  | c :: rest => needle.isPrefixOf (c :: rest) || listIsInfix needle rest

/-- One file of the downloads directory: its (base) name and its
modification time. -/
structure FsEntry where
  name : String
  mtime : Nat
deriving DecidableEq, Repr

/-- The entry of `e :: rest` with the greatest mtime; on ties the entry
listed first wins (Python's sort is stable). -/
def latestMax (e : FsEntry) : List FsEntry → FsEntry
  | [] => e
  | f :: rest =>
    let b := latestMax f rest
    if b.mtime > e.mtime then b else e

/-- app.py `files.sort(key=os.path.getmtime, reverse=True); files[0]`:
the entry with the greatest mtime; the sort is stable, so on ties the
entry listed first wins. `none` on an empty listing. -/
def latestFile : List FsEntry → Option FsEntry
  | [] => none
  | e :: rest => some (latestMax e rest)

/-- app.py `find_latest_file_with_title`: glob the directory for
`*sanitize_filename(title)*` and return the most recently modified match. -/
def find_latest_file_with_title (title : String) (fs : List FsEntry) : Option String :=
  let pat := (sanitize_filename title).data
  (latestFile (fs.filter fun e => listIsInfix pat e.name.data)).map (·.name)

/-- app.py lines 224-240, the fallback resolution after a successful
download: (1) the filename `expected` computed from the returned metadata,
when it exists in the directory; (2) when `title` is non-empty, the latest
file whose name contains the sanitized title; (3) the latest file overall.
`expected = none` models `prepare_filename` raising or the path not being
computed. -/
def fallbackResolve (expected : Option String) (title : String)
    (fs : List FsEntry) : Option String :=
  let step1 : Option String :=
    match expected with
    | some e => if fs.any fun x => x.name = e then some e else none
    | none => none
  let step2 : Option String :=
    match step1 with
    | some f => some f
    | none => if title ≠ "" then find_latest_file_with_title title fs else none
  match step2 with
  | some f => some f
  | none => (latestFile fs).map (·.name)

theorem latestMax_mem : ∀ (rest : List FsEntry) (e : FsEntry),
    latestMax e rest ∈ e :: rest := by
  intro rest
  induction rest with
  | nil => intro e; simp [latestMax]
  | cons f rs ih =>
    intro e
    unfold latestMax
    by_cases hm : (latestMax f rs).mtime > e.mtime
    · simp only [hm, if_pos]
      exact List.mem_cons_of_mem _ (ih f)
    · simp only [hm, if_neg, not_false_iff]
      exact List.mem_cons_self _ _

theorem latestMax_maximal : ∀ (rest : List FsEntry) (e x : FsEntry),
    x ∈ e :: rest → x.mtime ≤ (latestMax e rest).mtime := by
  intro rest
  induction rest with
  | nil =>
    intro e x hx
    simp at hx
    simp [latestMax, hx]
  | cons f rs ih =>
    intro e x hx
    unfold latestMax
    by_cases hm : (latestMax f rs).mtime > e.mtime
    · simp only [hm, if_pos]
      cases hx with
      | head => exact Nat.le_of_lt hm
      | tail _ hmem => exact ih f x hmem
    · simp only [hm, if_neg, not_false_iff]
      cases hx with
      | head => exact Nat.le_refl _
      | tail _ hmem => exact Nat.le_trans (ih f x hmem) (Nat.le_of_not_lt hm)

theorem latestFile_mem (fs : List FsEntry) (b : FsEntry)
    (h : latestFile fs = some b) : b ∈ fs := by
  cases fs with
  | nil => simp [latestFile] at h
  | cons e rest =>
    simp [latestFile] at h
    exact h ▸ latestMax_mem rest e

theorem latestFile_maximal (fs : List FsEntry) (b : FsEntry)
    (h : latestFile fs = some b) : ∀ e ∈ fs, e.mtime ≤ b.mtime := by
  cases fs with
  | nil => simp [latestFile] at h
  | cons e rest =>
    simp [latestFile] at h
    intro x hx
    exact h ▸ latestMax_maximal rest e x hx

theorem latestFile_isSome (fs : List FsEntry) (h : fs ≠ []) :
    ∃ b, latestFile fs = some b := by
  cases fs with
  | nil => exact absurd rfl h
  | cons e rest => exact ⟨latestMax e rest, rfl⟩

/-- Claim C8: fallback resolution tries, in order, (1) the deterministic
expected filename, (2) the most recent file whose name contains the
sanitized title, (3) the most recent file overall, first hit winning; the
step-2/3 results really are most-recently-modified elements of the
directory; a directory holding "My Title.mp3" resolves title "My Title"
to it, and an empty directory resolves to nothing. -/
theorem fallback_resolution_order (fs : List FsEntry) (title : String) :
    (∀ e, (fs.any fun x => x.name = e) = true →
        ∀ t, fallbackResolve (some e) t fs = some e)
    ∧ (∀ expected, (match expected with
          | some e => (fs.any fun x => x.name = e) = false
          | none => True) →
        title ≠ "" →
        ∀ m, find_latest_file_with_title title fs = some m →
          fallbackResolve expected title fs = some m)
    ∧ (∀ m, find_latest_file_with_title title fs = some m →
        ∃ b ∈ fs, b.name = m
          ∧ listIsInfix (sanitize_filename title).data b.name.data = true
          ∧ ∀ e ∈ fs, listIsInfix (sanitize_filename title).data e.name.data = true →
              e.mtime ≤ b.mtime)
    ∧ (∀ expected, (match expected with
          | some e => (fs.any fun x => x.name = e) = false
          | none => True) →
        find_latest_file_with_title title fs = none →
        fallbackResolve expected title fs = (latestFile fs).map (·.name))
    ∧ (fs ≠ [] → ∃ b, latestFile fs = some b ∧ b ∈ fs ∧ ∀ e ∈ fs, e.mtime ≤ b.mtime)
    ∧ fallbackResolve none "My Title" [⟨"My Title.mp3", 5⟩] = some "My Title.mp3"
    ∧ (∀ expected t, fallbackResolve expected t [] = none) := by
  refine ⟨?_, ?_, ?_, ?_, ?_, by decide, ?_⟩
  · intro e he t
    simp [fallbackResolve, he]
  · intro expected hexp htitle m hm
    cases expected with
    | none => simp [fallbackResolve, htitle, hm]
    | some e => simp [fallbackResolve, hexp, htitle, hm]
  · intro m hm
    unfold find_latest_file_with_title at hm
    simp only [Option.map_eq_some'] at hm
    obtain ⟨b, hb, hname⟩ := hm
    refine ⟨b, ?_, hname, ?_, ?_⟩
    · exact (List.mem_filter.mp (latestFile_mem _ _ hb)).1
    · exact (List.mem_filter.mp (latestFile_mem _ _ hb)).2
    · intro e he hinf
      exact latestFile_maximal _ _ hb e (List.mem_filter.mpr ⟨he, hinf⟩)
  · intro expected hexp hnone
    cases expected with
    | none =>
      by_cases htitle : title = ""
      · simp [fallbackResolve, htitle]
      · simp [fallbackResolve, htitle, hnone]
    | some e =>
      by_cases htitle : title = ""
      · simp [fallbackResolve, hexp, htitle]
      · simp [fallbackResolve, hexp, htitle, hnone]
  · intro h
    obtain ⟨b, hb⟩ := latestFile_isSome fs h
    exact ⟨b, hb, latestFile_mem _ _ hb, latestFile_maximal _ _ hb⟩
  · intro expected t
    cases expected <;> simp [fallbackResolve, find_latest_file_with_title, latestFile]

/-- Witness for C8 at a concrete directory: expected-name hit, title search,
and the concrete examples all evaluate. -/
theorem fallback_resolution_order_witness :
    fallbackResolve (some "a.mp4") "x"
        [⟨"a.mp4", 3⟩, ⟨"b.mp3", 9⟩] = some "a.mp4"
    ∧ fallbackResolve none "My Title" [⟨"My Title.mp3", 5⟩] = some "My Title.mp3" := by
  refine ⟨?_, ?_⟩
  · exact (fallback_resolution_order [⟨"a.mp4", 3⟩, ⟨"b.mp3", 9⟩] "x").1 "a.mp4"
      (by decide) "x"
  · exact (fallback_resolution_order [⟨"My Title.mp3", 5⟩] "My Title").2.2.2.2.2.1

/-! ## Error Explainer (Code_Bug.py `explain_runtime_error`,
`explain_java_error`) -/

/-- Python `str.splitlines()` restricted to the line breaks that occur in
captured process output: `\n`, `\r\n` and `\r`. No empty final element is
produced after a trailing break. -/
def pySplitlinesData : List Char → List Char → List String
  | [], acc => if acc.isEmpty then [] else [⟨acc.reverse⟩]
  | '\r' :: '\n' :: rest, acc => ⟨acc.reverse⟩ :: pySplitlinesData rest []
  | '\r' :: rest, acc => ⟨acc.reverse⟩ :: pySplitlinesData rest []
  | '\n' :: rest, acc => ⟨acc.reverse⟩ :: pySplitlinesData rest []
  | c :: rest, acc => pySplitlinesData rest (c :: acc)

/-- Python `s.splitlines()`. -/
def pySplitlines (s : String) : List String :=
  pySplitlinesData s.data []

/-- `[l for l in output.splitlines() if l.strip()]`: the non-blank lines
of the captured text. -/
def nonBlankLines (s : String) : List String :=
  (pySplitlines s).filter fun l => pyStrip l ≠ ""

/-- `'error:' in l`: the javac compiler-error marker. -/
def hasJavacErrorMarker (l : String) : Bool :=
  listIsInfix "error:".data l.data

/-- `'Exception' in l or 'Error' in l`: the Java runtime
exception/error marker. -/
def hasJavaExcMarker (l : String) : Bool :=
  listIsInfix "Exception".data l.data || listIsInfix "Error".data l.data

/-- `':' in l and not l.strip().startswith('File')`: the line the Python
branch summarizes out of a traceback. -/
def pyExcLine (l : String) : Bool :=
  l.data.contains ':' && !("File".data.isPrefixOf (pyStrip l).data)

/-- Code_Bug.py `explain_runtime_error(output, language)`, verbatim: empty
input gets the fixed no-errors sentence; whitespace-only input a second
fixed sentence; for Python, when `'Traceback' in output`, the last
non-blank line containing `':'` whose stripped form does not start with
`File` is summarized, else the last non-blank line is echoed with the
`Runtime stderr:` label; for any other language the last non-blank line is
echoed with the `Runtime/compile message:` label. -/
def explain_runtime_error (output : String) (language : String) : String :=
  if output = "" then "No runtime errors detected."
  else
    let lines := nonBlankLines output
    if lines = [] then "Runtime produced output but no errors present."
    else
      let last := lines.getLastD ""
      if language = "Python" then
        if listIsInfix "Traceback".data output.data then
          match lines.reverse.find? pyExcLine with
          | some l =>
            "Detected runtime exception: " ++ pyStrip l
              ++ " ‚Äî inspect traceback above to find offending line and fix the error (e.g., NameError, TypeError, IndexError)."
          | none => "Runtime stderr: " ++ last
        else "Runtime stderr: " ++ last
      else "Runtime/compile message: " ++ last

/-- Code_Bug.py `explain_java_error(stderr)`, verbatim. In the source the
first-error branch is guarded by `any('error:' in l for l in lines)` and
then scans `lines` for the first such line; that pair collapses to a
single `find?`. -/
def explain_java_error (stderr : String) : String :=
  if stderr = "" then "No compilation/runtime errors detected."
  else
    let lines := nonBlankLines stderr
    if lines = [] then "Java produced output on stderr but no clear message to summarize."
    else
      match lines.find? hasJavacErrorMarker with
      | some l =>
        "Compilation error detected: " ++ pyStrip l
          ++ " ‚Äî check the indicated file and line to fix syntax or type errors."
      | none =>
        match lines.reverse.find? hasJavaExcMarker with
        | some l =>
          "Runtime exception detected: " ++ pyStrip l
            ++ " ‚Äî inspect stack trace above for root cause."
        | none => "Java stderr: " ++ lines.getLastD ""

/-- Claim C7: both explainers are pure functions of (captured text,
language); empty input yields the fixed no-errors sentence; otherwise the
prioritized heuristics apply first-match-wins: a compiler-error-marker
line is summarized with top priority, else the last exception/error-marker
line, else the last non-blank line verbatim behind a generic label. -/
theorem error_explainer_first_match_wins (s : String) :
    ((∀ lang, explain_runtime_error "" lang = "No runtime errors detected.")
      ∧ explain_java_error "" = "No compilation/runtime errors detected.")
    ∧ (s ≠ "" →
        (∀ l, (nonBlankLines s).find? hasJavacErrorMarker = some l →
          explain_java_error s
            = "Compilation error detected: " ++ pyStrip l
                ++ " ‚Äî check the indicated file and line to fix syntax or type errors.")
        ∧ ((nonBlankLines s).find? hasJavacErrorMarker = none →
            ∀ l, (nonBlankLines s).reverse.find? hasJavaExcMarker = some l →
          explain_java_error s
            = "Runtime exception detected: " ++ pyStrip l
                ++ " ‚Äî inspect stack trace above for root cause.")
        ∧ (nonBlankLines s ≠ [] →
            (nonBlankLines s).find? hasJavacErrorMarker = none →
            (nonBlankLines s).reverse.find? hasJavaExcMarker = none →
          explain_java_error s = "Java stderr: " ++ (nonBlankLines s).getLastD ""))
    ∧ (s ≠ "" →
        (listIsInfix "Traceback".data s.data = true →
            ∀ l, (nonBlankLines s).reverse.find? pyExcLine = some l →
          explain_runtime_error s "Python"
            = "Detected runtime exception: " ++ pyStrip l
                ++ " ‚Äî inspect traceback above to find offending line and fix the error (e.g., NameError, TypeError, IndexError).")
        ∧ (nonBlankLines s ≠ [] → listIsInfix "Traceback".data s.data = false →
          explain_runtime_error s "Python"
            = "Runtime stderr: " ++ (nonBlankLines s).getLastD "")) := by
  refine ⟨⟨fun lang => rfl, rfl⟩, ?_, ?_⟩
  · intro hs
    refine ⟨?_, ?_, ?_⟩
    · intro l hl
      have hne : nonBlankLines s ≠ [] := by
        intro h0
        rw [h0] at hl
        simp at hl
      simp [explain_java_error, hs, hne, hl]
    · intro hnone l hl
      have hne : nonBlankLines s ≠ [] := by
        intro h0
        rw [h0] at hl
        simp at hl
      simp [explain_java_error, hs, hne, hnone, hl]
    · intro hne hnone1 hnone2
      simp [explain_java_error, hs, hne, hnone1, hnone2]
  · intro hs
    refine ⟨?_, ?_⟩
    · intro htb l hl
      have hne : nonBlankLines s ≠ [] := by
        intro h0
        rw [h0] at hl
        simp at hl
      simp [explain_runtime_error, hs, hne, htb, hl]
    · intro hne htb
      simp [explain_runtime_error, hs, hne, htb]

/-- Witness for C7 at concrete captured texts: a javac error line, a Java
stack-trace line, a plain Java stderr line, and a Python traceback. -/
theorem error_explainer_first_match_wins_witness :
    explain_java_error "Main.java:3: error: incompatible types"
      = "Compilation error detected: Main.java:3: error: incompatible types ‚Äî check the indicated file and line to fix syntax or type errors."
    ∧ explain_java_error "Exception in thread main\n\tat Main.main"
      = "Runtime exception detected: Exception in thread main ‚Äî inspect stack trace above for root cause."
    ∧ explain_java_error "warning: something\nnote: other"
      = "Java stderr: note: other"
    ∧ explain_runtime_error "Traceback (most recent call last):\n  File x, line 1\nNameError: name x is not defined" "Python"
      = "Detected runtime exception: NameError: name x is not defined ‚Äî inspect traceback above to find offending line and fix the error (e.g., NameError, TypeError, IndexError)."
    ∧ explain_runtime_error "plain message" "Python" = "Runtime stderr: plain message" := by
  refine ⟨?_, ?_, ?_, ?_, ?_⟩
  · exact ((error_explainer_first_match_wins
        "Main.java:3: error: incompatible types").2.1 (by decide)).1
        "Main.java:3: error: incompatible types" (by decide)
  · exact ((error_explainer_first_match_wins
        "Exception in thread main\n\tat Main.main").2.1 (by decide)).2.1 (by decide)
        "Exception in thread main" (by decide)
  · exact ((error_explainer_first_match_wins
        "warning: something\nnote: other").2.1 (by decide)).2.2 (by decide) (by decide) (by decide)
  · exact ((error_explainer_first_match_wins
        "Traceback (most recent call last):\n  File x, line 1\nNameError: name x is not defined").2.2
        (by decide)).1 (by decide) "NameError: name x is not defined" (by decide)
  · exact ((error_explainer_first_match_wins "plain message").2.2 (by decide)).2
      (by decide) (by decide)

/-! ## Process Runner (Code_Bug.py `run_python_realtime`,
`run_java_realtime`) -/

/-- `[A-Za-z_]`, the first character of the class-name group in the regex
`public\s+class\s+([A-Za-z_][A-Za-z0-9_]*)`. -/
def isIdentStart (c : Char) : Bool :=
  c.isAlpha || c = '_'

/-- `[A-Za-z0-9_]`, the remaining characters of the class-name group, and
the regex word characters deciding `\b`. -/
def isIdentChar (c : Char) : Bool :=
  c.isAlpha || c.isDigit || c = '_'

/-- Match the literal `lit` at the head of `l`, returning the rest. -/
def matchLit (lit : List Char) (l : List Char) : Option (List Char) :=
  if lit.isPrefixOf l then some (l.drop lit.length) else none

/-- Match `\s+` at the head of `l` (greedy; the following literal starts
with a non-space, so no backtracking is needed). -/
def matchWs1 : List Char → Option (List Char)
  | [] => none
  | c :: rest => if pyIsSpace c then some (rest.dropWhile pyIsSpace) else none

/-- Match `[A-Za-z_][A-Za-z0-9_]*` (greedy) at the head of `l`. -/
def matchIdent : List Char → Option String
  | [] => none
  | c :: rest => if isIdentStart c then some ⟨c :: rest.takeWhile isIdentChar⟩ else none

/-- Match `public\s+class\s+([A-Za-z_][A-Za-z0-9_]*)` anchored at the head
of `l`, returning the captured class name. -/
def pubClassAt (l : List Char) : Option String := do
  let l1 ← matchLit "public".data l
  let l2 ← matchWs1 l1
  let l3 ← matchLit "class".data l2
  let l4 ← matchWs1 l3
  matchIdent l4

/-- `re.search(r'public\s+class\s+([A-Za-z_][A-Za-z0-9_]*)', code)`:
the captured group of the leftmost match. -/
def firstPubClass : List Char → Option String
  | [] => none
  | c :: rest =>
    match pubClassAt (c :: rest) with
    | some n => some n
    | none => firstPubClass rest

/-- The word `class` at the head of `l` with a word boundary on both
sides; `prev` is the character just before `l`, when any. -/
def classWordAt (prev : Option Char) (l : List Char) : Bool :=
  "class".data.isPrefixOf l
    && (match prev with | some p => !isIdentChar p | none => true)
    && (match l.drop 5 with | c :: _ => !isIdentChar c | [] => true)

/-- `re.search(r'\b(class)\b', code)` as a Boolean. -/
def containsClassWord : Option Char → List Char → Bool
  | _, [] => false
  | prev, c :: rest => classWordAt prev (c :: rest) || containsClassWord (some c) rest

/-- Code_Bug.py: `class_name = m.group(1) if m else 'Main'`. -/
def javaClassName (code : String) : String :=
  (firstPubClass code.data).getD "Main"

/-- Code_Bug.py: wrap only when no public class was detected and the code
has no word `class` at all. -/
def javaWraps (code : String) : Bool :=
  (firstPubClass code.data).isNone && !containsClassWord none code.data

/-- The source actually written to `{class_name}.java`: the code verbatim,
or wrapped into `public class {class_name} { public static void
main(String[] args) { ... } }`. -/
def javaSource (code : String) : String :=
  if javaWraps code then
    "public class " ++ javaClassName code
      ++ " \x7b\n public static void main(String[] args) \x7b\n"
      ++ code ++ "\n\x7d\n\x7d"
  else code

/-- What one `subprocess.run(...)` call is observed to do: finish within
the timeout with an exit code and captured streams, exceed the timeout
(`subprocess.run` then kills the child and raises `TimeoutExpired`
carrying whatever stdout was buffered), or raise some other exception. -/
inductive ProcBehavior where
  | completed (exitCode : Int) (stdout stderr : String)
  | timedOut (bufferedStdout : Option String)
  | raised (msg : String)
deriving DecidableEq, Repr

/-- Filesystem and process effects a runner performs, in order. -/
inductive FsOp where
  | createFile (path : String) (content : String)
  | removeFile (path : String)
  | createDir (path : String)
  | removeDir (path : String)
  | spawn (argv : List String)
  | kill
deriving DecidableEq, Repr

/-- `str(subprocess.TimeoutExpired)`: `Command ... timed out after N
seconds` (CPython renders the command between quotes; the rendering of the
argument list is immaterial to the claims and kept plain here). -/
def pyTimeoutMsg (argv : List String) (timeout : Nat) : String :=
  "Command " ++ String.intercalate " " argv ++ " timed out after "
    ++ toString timeout ++ " seconds"

/-- Code_Bug.py `run_python_realtime(code, timeout)`: write `code` to a
fresh temp file `tmpPath`, run the interpreter on it, and return
`(returncode, stdout, stderr)`; `-1` with `e.stdout or ""` and `str(e) or
"Execution timed out"` on `TimeoutExpired`, `-2` on any other exception;
the `finally` block removes the temp file on every path. -/
def run_python_realtime (tmpPath code : String) (timeout : Nat)
    (b : ProcBehavior) : (Int × String × String) × List FsOp :=
  let argv := ["python", tmpPath]
  let setup := [FsOp.createFile tmpPath code, FsOp.spawn argv]
  match b with
  | ProcBehavior.completed rc out err =>
    ((rc, out, err), setup ++ [FsOp.removeFile tmpPath])
  | ProcBehavior.timedOut bufOut =>
    let msg := pyTimeoutMsg argv timeout
    ((-1, bufOut.getD "", if msg = "" then "Execution timed out" else msg),
      setup ++ [FsOp.kill, FsOp.removeFile tmpPath])
  | ProcBehavior.raised msg =>
    ((-2, "", msg), setup ++ [FsOp.removeFile tmpPath])

/-- The environment a `run_java_realtime` call runs in: what
`shutil.which` finds for `javac` and `java`, and how the compile and run
subprocesses behave. -/
structure JavaEnv where
  whichJavac : Option String
  whichJava : Option String
  compileB : ProcBehavior
  runB : ProcBehavior
deriving DecidableEq, Repr

/-- Code_Bug.py `run_java_realtime(code, timeout)`: `-3` without touching
the filesystem when `javac` or `java` is missing from PATH; otherwise make
a temp directory `tmpdir`, write `{class_name}.java`, compile, and — only
when the compiler exited 0 — run; `-1` on `TimeoutExpired` (child killed,
partial stdout kept), `-2` on any other exception; the `finally` block
removes the whole temp directory on every path. -/
def run_java_realtime (code : String) (timeout : Nat) (tmpdir : String)
    (env : JavaEnv) : (Int × String × String) × List FsOp :=
  match env.whichJavac, env.whichJava with
  | some javac, some javaExec =>
    let className := javaClassName code
    let fileName := tmpdir ++ "/" ++ className ++ ".java"
    let compileArgv := [javac, fileName]
    let setup := [FsOp.createDir tmpdir,
      FsOp.createFile fileName (javaSource code), FsOp.spawn compileArgv]
    (match env.compileB with
     | ProcBehavior.completed rc out err =>
       if rc ≠ 0 then ((rc, out, err), setup ++ [FsOp.removeDir tmpdir])
       else
         let runArgv := [javaExec, "-cp", tmpdir, className]
         let setup2 := setup ++ [FsOp.spawn runArgv]
         (match env.runB with
          | ProcBehavior.completed rrc rout rerr =>
            ((rrc, rout, rerr), setup2 ++ [FsOp.removeDir tmpdir])
          | ProcBehavior.timedOut bufOut =>
            let msg := pyTimeoutMsg runArgv timeout
            ((-1, bufOut.getD "", if msg = "" then "Execution timed out" else msg),
              setup2 ++ [FsOp.kill, FsOp.removeDir tmpdir])
          | ProcBehavior.raised msg =>
            ((-2, "", msg), setup2 ++ [FsOp.removeDir tmpdir]))
     | ProcBehavior.timedOut bufOut =>
       let msg := pyTimeoutMsg compileArgv timeout
       ((-1, bufOut.getD "", if msg = "" then "Execution timed out" else msg),
         setup ++ [FsOp.kill, FsOp.removeDir tmpdir])
     | ProcBehavior.raised msg =>
       ((-2, "", msg), setup ++ [FsOp.removeDir tmpdir]))
  | _, _ => ((-3, "", "javac or java executable not found on PATH"), [])

/-- Is `p` a path strictly inside directory `dir` (`shutil.rmtree` removes
those too)? -/
def underDir (dir p : String) : Bool :=
  (dir ++ "/").data.isPrefixOf p.data

/-- The artifacts still on disk after replaying the effect trace. -/
def liveArtifacts (ops : List FsOp) : List String :=
  ops.foldl
    (fun acc op =>
      match op with
      | FsOp.createFile p _ => acc ++ [p]
      | FsOp.createDir p => acc ++ [p]
      | FsOp.removeFile p => acc.filter fun q => q != p
      | FsOp.removeDir p => acc.filter fun q => q != p && !underDir p q
      | _ => acc)
    []

/-- Does the trace spawn a process? -/
def isSpawnOp : FsOp → Bool
  | FsOp.spawn _ => true
  | _ => false

theorem isPrefixOf_append_self (l m : List Char) : l.isPrefixOf (l ++ m) = true := by
  rw [List.isPrefixOf_iff_prefix]
  exact List.prefix_append l m

theorem underDir_append (d cn sfx : String) :
    underDir d (d ++ "/" ++ cn ++ sfx) = true := by
  unfold underDir
  have hdata : (d ++ "/" ++ cn ++ sfx).data = (d ++ "/").data ++ (cn.data ++ sfx.data) := by
    simp [String.data_append, List.append_assoc]
  rw [hdata]
  exact isPrefixOf_append_self _ _

theorem pyTimeoutMsg_ne_empty (argv : List String) (t : Nat) :
    pyTimeoutMsg argv t ≠ "" := by
  intro h
  have hd : (pyTimeoutMsg argv t).data = ("" : String).data := by rw [h]
  simp [pyTimeoutMsg, String.data_append] at hd

theorem timed_out_infix (argv : List String) (t : Nat) :
    "timed out".data <:+: (pyTimeoutMsg argv t).data := by
  refine ⟨"Command ".data ++ (String.intercalate " " argv).data ++ [' '],
    " after ".data ++ (toString t).data ++ " seconds".data, ?_⟩
  have hsplit : (" timed out after ").data
      = ([' '] ++ "timed out".data) ++ " after ".data := by decide
  simp [pyTimeoutMsg, String.data_append, hsplit, List.append_assoc]

/-- Claim C2: on a timeout of the external process, both runners return
exit code `-1` together with the buffered partial stdout, the stderr slot
carries `str(TimeoutExpired)` (a message containing "timed out"), and the
child process is killed. Covers the Python runner, the Java compile phase
and the Java run phase. -/
theorem runner_timeout_minus_one (tmpPath code : String) (t : Nat)
    (bufOut : Option String) (jcode tmpdir jc jv : String)
    (jbuf rbuf : Option String) (rb : ProcBehavior) (co ce : String) :
    ((run_python_realtime tmpPath code t (ProcBehavior.timedOut bufOut)).1
        = (-1, bufOut.getD "", pyTimeoutMsg ["python", tmpPath] t)
      ∧ FsOp.kill ∈ (run_python_realtime tmpPath code t (ProcBehavior.timedOut bufOut)).2)
    ∧ ((run_java_realtime jcode t tmpdir
          ⟨some jc, some jv, ProcBehavior.timedOut jbuf, rb⟩).1
        = (-1, jbuf.getD "",
            pyTimeoutMsg [jc, tmpdir ++ "/" ++ javaClassName jcode ++ ".java"] t)
      ∧ FsOp.kill ∈ (run_java_realtime jcode t tmpdir
          ⟨some jc, some jv, ProcBehavior.timedOut jbuf, rb⟩).2)
    ∧ ((run_java_realtime jcode t tmpdir
          ⟨some jc, some jv, ProcBehavior.completed 0 co ce,
            ProcBehavior.timedOut rbuf⟩).1
        = (-1, rbuf.getD "",
            pyTimeoutMsg [jv, "-cp", tmpdir, javaClassName jcode] t)
      ∧ FsOp.kill ∈ (run_java_realtime jcode t tmpdir
          ⟨some jc, some jv, ProcBehavior.completed 0 co ce,
            ProcBehavior.timedOut rbuf⟩).2)
    ∧ (∀ argv u, "timed out".data <:+: (pyTimeoutMsg argv u).data) := by
  refine ⟨⟨?_, ?_⟩, ⟨?_, ?_⟩, ⟨?_, ?_⟩, fun argv u => timed_out_infix argv u⟩
  · simp [run_python_realtime, if_neg (pyTimeoutMsg_ne_empty _ _)]
  · simp [run_python_realtime]
  · simp [run_java_realtime, if_neg (pyTimeoutMsg_ne_empty _ _)]
  · simp [run_java_realtime]
  · simp [run_java_realtime, if_neg (pyTimeoutMsg_ne_empty _ _)]
  · simp [run_java_realtime]

/-- Claim C4: with the toolchain absent from PATH the Java runner returns
`-3` with the fixed message and performs no filesystem effect at all (no
temp file, no temp directory); this holds with both executables missing,
and with either one missing. -/
theorem java_toolchain_missing_minus_three (code : String) (t : Nat)
    (tmpdir jc jv : String) (cb rb : ProcBehavior) :
    run_java_realtime code t tmpdir ⟨none, none, cb, rb⟩
        = ((-3, "", "javac or java executable not found on PATH"), [])
    ∧ run_java_realtime code t tmpdir ⟨none, some jv, cb, rb⟩
        = ((-3, "", "javac or java executable not found on PATH"), [])
    ∧ run_java_realtime code t tmpdir ⟨some jc, none, cb, rb⟩
        = ((-3, "", "javac or java executable not found on PATH"), []) :=
  ⟨rfl, rfl, rfl⟩

/-- Claim C5: when the compile phase exits non-zero the Java runner
returns the compiler's exit code, stdout and stderr verbatim, and the only
process it ever spawned is the compiler — the run phase is never
executed. -/
theorem java_compile_failure_skips_run (code : String) (t : Nat)
    (tmpdir jc jv : String) (rc : Int) (out err : String) (rb : ProcBehavior)
    (h : rc ≠ 0) :
    (run_java_realtime code t tmpdir
        ⟨some jc, some jv, ProcBehavior.completed rc out err, rb⟩).1
      = (rc, out, err)
    ∧ ((run_java_realtime code t tmpdir
        ⟨some jc, some jv, ProcBehavior.completed rc out err, rb⟩).2.filter isSpawnOp)
      = [FsOp.spawn [jc, tmpdir ++ "/" ++ javaClassName code ++ ".java"]] := by
  constructor
  · simp [run_java_realtime, h]
  · simp [run_java_realtime, h, isSpawnOp, List.filter]

/-- Witness for C5: a compiler failing with exit code 2 is propagated
verbatim and the run phase never spawns. -/
theorem java_compile_failure_skips_run_witness :
    (2 : Int) ≠ 0
    ∧ ((run_java_realtime "x" 5 "tmp"
          ⟨some "javac", some "java", ProcBehavior.completed 2 "o" "e",
            ProcBehavior.raised "m"⟩).1 = (2, "o", "e")
      ∧ ((run_java_realtime "x" 5 "tmp"
          ⟨some "javac", some "java", ProcBehavior.completed 2 "o" "e",
            ProcBehavior.raised "m"⟩).2.filter isSpawnOp)
        = [FsOp.spawn ["javac", "tmp" ++ "/" ++ javaClassName "x" ++ ".java"]]) :=
  ⟨by decide,
    java_compile_failure_skips_run "x" 5 "tmp" "javac" "java" 2 "o" "e"
      (ProcBehavior.raised "m") (by decide)⟩

/-- Claim C6: on every exit path of either runner — normal completion,
timeout, unexpected exception, compile failure — every temporary artifact
the call created (the temp `.py` file; the temp directory and the source
file inside it) has been removed by the time the runner returns. -/
theorem runner_cleanup_every_path (tmpPath code jcode : String) (t : Nat)
    (b : ProcBehavior) (tmpdir : String) (env : JavaEnv) :
    liveArtifacts (run_python_realtime tmpPath code t b).2 = []
    ∧ liveArtifacts (run_java_realtime jcode t tmpdir env).2 = [] := by
  constructor
  · cases b <;>
      simp [run_python_realtime, liveArtifacts, List.filter, bne_self_eq_false]
  · obtain ⟨jc, jv, cb, rb⟩ := env
    cases jc with
    | none => cases jv <;> simp [run_java_realtime, liveArtifacts]
    | some javac =>
      cases jv with
      | none => simp [run_java_realtime, liveArtifacts]
      | some javaExec =>
        cases cb with
        | completed rc out err =>
          by_cases hrc : rc = 0
          · subst hrc
            cases rb <;>
              simp [run_java_realtime, liveArtifacts, List.filter,
                bne_self_eq_false, underDir_append]
          · simp [run_java_realtime, hrc, liveArtifacts, List.filter,
              bne_self_eq_false, underDir_append]
        | timedOut bo =>
          simp [run_java_realtime, liveArtifacts, List.filter,
            bne_self_eq_false, underDir_append]
        | raised m =>
          simp [run_java_realtime, liveArtifacts, List.filter,
            bne_self_eq_false, underDir_append]

/-- Claim C10: the class name compiled and run is the captured identifier
of the first `public class` declaration when one exists, `Main`
otherwise; the source is wrapped into `public class Main { public static
void main(String[] args) { ... } }` exactly when there is no public class
and no word `class` at all, and compiled as written otherwise; the runner
writes `{class_name}.java` with exactly that source and, when compilation
succeeds, runs exactly that class. Concrete cases: a public class, bare
statements, and a non-public class. -/
theorem java_class_selection (code : String) :
    (∀ n, firstPubClass code.data = some n →
        javaClassName code = n ∧ javaSource code = code)
    ∧ (firstPubClass code.data = none → javaClassName code = "Main")
    ∧ (firstPubClass code.data = none → containsClassWord none code.data = false →
        javaSource code
          = "public class Main \x7b\n public static void main(String[] args) \x7b\n"
              ++ code ++ "\n\x7d\n\x7d")
    ∧ (containsClassWord none code.data = true → javaSource code = code)
    ∧ (∀ t tmpdir jc jv cb rb,
        FsOp.createFile (tmpdir ++ "/" ++ javaClassName code ++ ".java")
            (javaSource code)
          ∈ (run_java_realtime code t tmpdir ⟨some jc, some jv, cb, rb⟩).2)
    ∧ (∀ t tmpdir jc jv co ce rb,
        FsOp.spawn [jv, "-cp", tmpdir, javaClassName code]
          ∈ (run_java_realtime code t tmpdir
              ⟨some jc, some jv, ProcBehavior.completed 0 co ce, rb⟩).2)
    ∧ javaClassName "public class Foo \x7b \x7d" = "Foo"
    ∧ javaSource "public class Foo \x7b \x7d" = "public class Foo \x7b \x7d"
    ∧ javaClassName "System.out.println(1);" = "Main"
    ∧ javaWraps "System.out.println(1);" = true
    ∧ javaClassName "class Bar \x7b \x7d" = "Main"
    ∧ javaSource "class Bar \x7b \x7d" = "class Bar \x7b \x7d" := by
  refine ⟨?_, ?_, ?_, ?_, ?_, ?_, by decide, by decide, by decide, by decide,
    by decide, by decide⟩
  · intro n h
    constructor
    · simp [javaClassName, h]
    · simp [javaSource, javaWraps, h]
  · intro h
    simp [javaClassName, h]
  · intro h1 h2
    have hname : javaClassName code = "Main" := by simp [javaClassName, h1]
    have hwraps : javaWraps code = true := by simp [javaWraps, h1, h2]
    rw [javaSource, if_pos hwraps, hname]
    have hlit : ("public class " ++ "Main")
          ++ " \x7b\n public static void main(String[] args) \x7b\n"
        = "public class Main \x7b\n public static void main(String[] args) \x7b\n" := by
      decide
    rw [← hlit]
  · intro h
    simp [javaSource, javaWraps, h]
  · intro t tmpdir jc jv cb rb
    cases cb with
    | completed rc out err =>
      by_cases hrc : rc = 0
      · subst hrc
        cases rb <;> simp [run_java_realtime]
      · simp [run_java_realtime, hrc]
    | timedOut bo => simp [run_java_realtime]
    | raised m => simp [run_java_realtime]
  · intro t tmpdir jc jv co ce rb
    cases rb <;> simp [run_java_realtime]

/-! ## Progress Relay (app.py `download_with_hook` and the polling loop,
lines 83-117 and 162-204) -/

/-- One progress dict pushed by the yt-dlp progress hook. -/
inductive ProgressEvent where
  | downloading (downloadedBytes : Nat) (totalBytes : Option Nat) (filename : String)
  | finished
  | errored
deriving DecidableEq, Repr

/-- The single terminal record `download_with_hook` puts on `result_q`:
`{"status": "finished", "info": ...}` or `{"status": "error", "error":
...}`. -/
inductive OperationOutcome where
  | finished (info : String)
  | error (msg : String)
deriving DecidableEq, Repr

/-- One enqueue the background thread performs, in program order: the
progress hook's `events_q.put(d)` calls during `extract_info`, then —
only after `extract_info` has returned or raised — the single
`result_q.put(...)`. -/
inductive PAct where
  | putEvent (e : ProgressEvent)
  | putOutcome (o : OperationOutcome)
deriving DecidableEq, Repr

/-- Where the foreground (polling) task is: inside the `while` loop,
between the loop and `result_q.get_nowait()`, or finished. -/
inductive ConsPc where
  | inLoop
  | afterLoop
  | done
deriving DecidableEq, Repr

/-- What the foreground task ends with: the outcome it dequeued, or
`ResultMissing` (`result = None` → `st.error("Download failed or was
interrupted.")`). -/
inductive RelayReport where
  | outcome (o : OperationOutcome)
  | resultMissing
deriving DecidableEq, Repr

/-- `st.success` is shown only for a dequeued outcome whose status is
`finished`; `ResultMissing` and error outcomes surface `st.error`. -/
def reportSuccess : RelayReport → Bool
  | RelayReport.outcome (OperationOutcome.finished _) => true
  | RelayReport.outcome (OperationOutcome.error _) => false
  | RelayReport.resultMissing => false

/-- The joint state: the background thread's remaining enqueues (the
thread is alive iff some remain), the two FIFO queues, the events the
consumer has drained in order, the consumer's position, and its final
report. -/
structure RelayState where
  prodActs : List PAct
  eventsQ : List ProgressEvent
  resultQ : List OperationOutcome
  observed : List ProgressEvent
  pc : ConsPc
  report : Option RelayReport
deriving DecidableEq, Repr

/-- Interleaving small-step semantics of the producer thread and the
polling loop:
* `prodEvent`/`prodOutcome` — the background thread performs its next
  `put` (queues are unbounded, `put` never blocks);
* `consDrain` — one `events_q.get_nowait()` succeeding inside the loop;
* `exitLoop` — the `while download_thread.is_alive() or not
  result_q.empty()` guard observed false: thread dead AND result queue
  empty;
* `getResult` — the post-loop `result_q.get_nowait()`: reports the head
  outcome when one exists, else `ResultMissing`. -/
inductive RelayStep : RelayState → RelayState → Prop where
  | prodEvent (e : ProgressEvent) (rest : List PAct) (s : RelayState)
      (h : s.prodActs = PAct.putEvent e :: rest) :
      RelayStep s { s with prodActs := rest, eventsQ := s.eventsQ ++ [e] }
  | prodOutcome (o : OperationOutcome) (rest : List PAct) (s : RelayState)
      (h : s.prodActs = PAct.putOutcome o :: rest) :
      RelayStep s { s with prodActs := rest, resultQ := s.resultQ ++ [o] }
  | consDrain (e : ProgressEvent) (rest : List ProgressEvent) (s : RelayState)
      (hpc : s.pc = ConsPc.inLoop) (h : s.eventsQ = e :: rest) :
      RelayStep s { s with eventsQ := rest, observed := s.observed ++ [e] }
  | exitLoop (s : RelayState)
      (hpc : s.pc = ConsPc.inLoop) (hp : s.prodActs = []) (hq : s.resultQ = []) :
      RelayStep s { s with pc := ConsPc.afterLoop }
  | getResult (s : RelayState) (hpc : s.pc = ConsPc.afterLoop) :
      RelayStep s { s with
        pc := ConsPc.done,
        resultQ := s.resultQ.tail,
        report := some (match s.resultQ with
          | [] => RelayReport.resultMissing
          | o :: _ => RelayReport.outcome o) }

/-- Zero or more interleaved steps. -/
def RelayReach (a b : RelayState) : Prop :=
  Relation.ReflTransGen RelayStep a b

/-- The initial state once `download_thread.start()` returns and the
polling loop is entered, for a background operation that will emit
`events` in order and then (after `extract_info` returns or raises)
enqueue the single outcome `o`: both queues empty, nothing observed. -/
def relayInit (events : List ProgressEvent) (o : OperationOutcome) : RelayState :=
  ⟨events.map PAct.putEvent ++ [PAct.putOutcome o], [], [], [], ConsPc.inLoop, none⟩

/-- Inductive invariant for runs of `relayInit`: while the single outcome
is still pending or already enqueued — and it always is — the loop guard
`is_alive() or not result_q.empty()` never goes false, so the consumer
never leaves the loop. -/
def RelayGuardInv (s : RelayState) : Prop :=
  s.pc = ConsPc.inLoop ∧ s.report = none
    ∧ ((∃ o, PAct.putOutcome o ∈ s.prodActs) ∨ s.resultQ ≠ [])

theorem relayGuardInv_step (s s' : RelayState) (hstep : RelayStep s s')
    (hinv : RelayGuardInv s) : RelayGuardInv s' := by
  obtain ⟨hpc, hrep, hpend⟩ := hinv
  cases hstep with
  | prodEvent e rest t h =>
    refine ⟨hpc, hrep, ?_⟩
    cases hpend with
    | inl hex =>
      obtain ⟨o, ho⟩ := hex
      rw [h] at ho
      cases ho with
      | tail _ hmem => exact Or.inl ⟨o, hmem⟩
    | inr hq => exact Or.inr hq
  | prodOutcome o rest t h =>
    exact ⟨hpc, hrep, Or.inr (by simp)⟩
  | consDrain e rest t hpc2 h =>
    exact ⟨hpc, hrep, hpend⟩
  | exitLoop t hpc2 hp hq =>
    cases hpend with
    | inl hex => obtain ⟨o, ho⟩ := hex; rw [hp] at ho; simp at ho
    | inr hne => exact absurd hq hne
  | getResult t hpc2 =>
    rw [hpc] at hpc2
    simp at hpc2

theorem relayGuardInv_reach (a b : RelayState) (h : RelayReach a b)
    (ha : RelayGuardInv a) : RelayGuardInv b := by
  induction h with
  | refl => exact ha
  | tail _ hstep ih => exact relayGuardInv_step _ _ hstep ih

/-- Producer prefix of a run: perform every pending `putEvent`. -/
theorem relay_reach_prodAll (evs : List ProgressEvent) :
    ∀ (acts : List PAct) (q : List ProgressEvent) (res : List OperationOutcome)
      (obs : List ProgressEvent) (pc : ConsPc) (rep : Option RelayReport),
    RelayReach ⟨evs.map PAct.putEvent ++ acts, q, res, obs, pc, rep⟩
      ⟨acts, q ++ evs, res, obs, pc, rep⟩ := by
  induction evs with
  | nil =>
    intro acts q res obs pc rep
    simp only [List.map_nil, List.nil_append, List.append_nil]
    exact Relation.ReflTransGen.refl
  | cons e rest ih =>
    intro acts q res obs pc rep
    refine Relation.ReflTransGen.head
      (RelayStep.prodEvent e (rest.map PAct.putEvent ++ acts) _ rfl) ?_
    have h2 := ih acts (q ++ [e]) res obs pc rep
    simpa [List.append_assoc] using h2

/-- Consumer drain of everything queued, while in the loop. -/
theorem relay_reach_drainAll (q : List ProgressEvent) :
    ∀ (acts : List PAct) (res : List OperationOutcome)
      (obs : List ProgressEvent) (rep : Option RelayReport),
    RelayReach ⟨acts, q, res, obs, ConsPc.inLoop, rep⟩
      ⟨acts, [], res, obs ++ q, ConsPc.inLoop, rep⟩ := by
  induction q with
  | nil =>
    intro acts res obs rep
    simp only [List.append_nil]
    exact Relation.ReflTransGen.refl
  | cons e rest ih =>
    intro acts res obs rep
    refine Relation.ReflTransGen.head
      (RelayStep.consDrain e rest _ rfl rfl) ?_
    have h2 := ih acts res (obs ++ [e]) rep
    simpa [List.append_assoc] using h2

/-- Claim C1 (refuted by the code): for every run of the relay whose
background operation emits `events` and then enqueues its single outcome,
(a) the events are all relayed in order and the outcome is enqueued only
after all of them — the state where the thread has terminated with the
outcome sitting in `result_q` and all events observed in order is
reachable — yet (b) every reachable state still has the consumer inside
the `while` loop with no report: the loop guard `is_alive() or not
result_q.empty()` can never go false because the loop body never dequeues
`result_q`, so the polling consumer never observes the outcome. -/
theorem relay_outcome_never_observed (events : List ProgressEvent)
    (o : OperationOutcome) :
    (RelayReach (relayInit events o)
        ⟨[], [], [o], events, ConsPc.inLoop, none⟩)
    ∧ (∀ s, RelayReach (relayInit events o) s →
        s.pc = ConsPc.inLoop ∧ s.report = none) := by
  constructor
  · have h1 : RelayReach (relayInit events o)
        ⟨[PAct.putOutcome o], [] ++ events, [], [], ConsPc.inLoop, none⟩ :=
      relay_reach_prodAll events [PAct.putOutcome o] [] [] [] ConsPc.inLoop none
    have h2 : RelayStep
        (⟨[PAct.putOutcome o], [] ++ events, [], [], ConsPc.inLoop, none⟩ : RelayState)
        ⟨[], [] ++ events, [] ++ [o], [], ConsPc.inLoop, none⟩ :=
      RelayStep.prodOutcome o [] _ rfl
    have h3 : RelayReach
        (⟨[], [] ++ events, [] ++ [o], [], ConsPc.inLoop, none⟩ : RelayState)
        ⟨[], [], [] ++ [o], [] ++ events, ConsPc.inLoop, none⟩ :=
      relay_reach_drainAll events [] ([] ++ [o]) [] none
    have hall := (h1.tail h2).trans h3
    simpa using hall
  · intro s hs
    have hinv : RelayGuardInv (relayInit events o) := by
      refine ⟨rfl, rfl, Or.inl ⟨o, ?_⟩⟩
      simp [relayInit]
    have := relayGuardInv_reach _ _ hs hinv
    exact ⟨this.1, this.2.1⟩

/-- Weight of the consumer's position, decreasing along its control
flow. -/
def pcWeight : ConsPc → Nat
  | ConsPc.inLoop => 2
  | ConsPc.afterLoop => 1
  | ConsPc.done => 0

/-- A variant strictly decreasing along every step: the whole relay
always terminates (events are drained, the thread's script is finite, the
consumer's control flow is linear). -/
def relayMeasure (s : RelayState) : Nat :=
  2 * s.prodActs.length + s.eventsQ.length + pcWeight s.pc

theorem relayMeasure_decreases (s s' : RelayState) (hstep : RelayStep s s') :
    relayMeasure s' < relayMeasure s := by
  cases hstep with
  | prodEvent e rest t h => simp [relayMeasure, h]; omega
  | prodOutcome o rest t h => simp [relayMeasure, h]
  | consDrain e rest t hpc h => simp [relayMeasure, h]
  | exitLoop t hpc hp hq => simp [relayMeasure, hpc, pcWeight]
  | getResult t hpc => simp [relayMeasure, hpc, pcWeight]

/-- Invariant of runs starting where the loop guard is false (thread dead,
result queue empty): the producer stays dead, the result queue stays
empty, and the only report that can ever be filed is `ResultMissing`. -/
def ResultMissingInv (s : RelayState) : Prop :=
  s.prodActs = [] ∧ s.resultQ = []
    ∧ (s.report = none ∨ s.report = some RelayReport.resultMissing)
    ∧ (s.pc = ConsPc.done → s.report = some RelayReport.resultMissing)

theorem resultMissingInv_step (s s' : RelayState) (hstep : RelayStep s s')
    (hinv : ResultMissingInv s) : ResultMissingInv s' := by
  obtain ⟨hp, hq, hrep, hdone⟩ := hinv
  cases hstep with
  | prodEvent e rest t h => rw [hp] at h; exact absurd h (by simp)
  | prodOutcome o rest t h => rw [hp] at h; exact absurd h (by simp)
  | consDrain e rest t hpc h =>
    exact ⟨hp, hq, hrep, hdone⟩
  | exitLoop t hpc hp2 hq2 =>
    refine ⟨hp, hq, hrep, ?_⟩
    intro hcontra
    simp at hcontra
  | getResult t hpc =>
    refine ⟨hp, ?_, ?_, ?_⟩
    · simp [hq]
    · simp [hq]
    · intro _
      simp [hq]

theorem resultMissingInv_reach (a b : RelayState) (h : RelayReach a b)
    (ha : ResultMissingInv a) : ResultMissingInv b := by
  induction h with
  | refl => exact ha
  | tail _ hstep ih => exact resultMissingInv_step _ _ hstep ih

/-- Claim C3: whenever the polling loop observes `download_thread` dead
and `result_q` empty, the system (a) can only ever file `ResultMissing` —
never a success report — and any filed report is `ResultMissing`, (b) is
never stuck before filing a report (some step is always enabled), (c)
actually reaches the final state where `ResultMissing` has been surfaced
as an error, and (d) every step strictly decreases a natural-number
variant, so the loop exits and reports in finitely many steps — it cannot
block indefinitely. -/
theorem polling_result_missing_error (q obs : List ProgressEvent) :
    (∀ s, RelayReach ⟨[], q, [], obs, ConsPc.inLoop, none⟩ s →
        (∀ x, s.report ≠ some (RelayReport.outcome x))
        ∧ (∀ r, s.report = some r → reportSuccess r = false)
        ∧ (s.pc = ConsPc.done → s.report = some RelayReport.resultMissing))
    ∧ (∀ s, RelayReach ⟨[], q, [], obs, ConsPc.inLoop, none⟩ s →
        s.pc ≠ ConsPc.done → ∃ s', RelayStep s s')
    ∧ RelayReach ⟨[], q, [], obs, ConsPc.inLoop, none⟩
        ⟨[], [], [], obs ++ q, ConsPc.done, some RelayReport.resultMissing⟩
    ∧ (∀ s s', RelayStep s s' → relayMeasure s' < relayMeasure s) := by
  have hinv0 : ResultMissingInv ⟨[], q, [], obs, ConsPc.inLoop, none⟩ := by
    refine ⟨rfl, rfl, Or.inl rfl, ?_⟩
    intro hcontra
    simp at hcontra
  refine ⟨?_, ?_, ?_, fun s s' h => relayMeasure_decreases s s' h⟩
  · intro s hs
    obtain ⟨hp, hq, hrep, hdone⟩ := resultMissingInv_reach _ _ hs hinv0
    refine ⟨?_, ?_, hdone⟩
    · intro x hx
      cases hrep with
      | inl h0 => rw [h0] at hx; exact absurd hx (by simp)
      | inr h0 => rw [h0] at hx; simp at hx
    · intro r hr
      cases hrep with
      | inl h0 => rw [h0] at hr; exact absurd hr (by simp)
      | inr h0 =>
        rw [h0] at hr
        simp at hr
        subst hr
        rfl
  · intro s hs hnotdone
    obtain ⟨hp, hq, hrep, hdone⟩ := resultMissingInv_reach _ _ hs hinv0
    cases hpc : s.pc with
    | inLoop =>
      cases hev : s.eventsQ with
      | nil => exact ⟨_, RelayStep.exitLoop s hpc hp hq⟩
      | cons e rest => exact ⟨_, RelayStep.consDrain e rest s hpc hev⟩
    | afterLoop => exact ⟨_, RelayStep.getResult s hpc⟩
    | done => exact absurd hpc hnotdone
  · have h1 : RelayReach (⟨[], q, [], obs, ConsPc.inLoop, none⟩ : RelayState)
        ⟨[], [], [], obs ++ q, ConsPc.inLoop, none⟩ :=
      relay_reach_drainAll q [] [] obs none
    have h2 : RelayStep (⟨[], [], [], obs ++ q, ConsPc.inLoop, none⟩ : RelayState)
        ⟨[], [], [], obs ++ q, ConsPc.afterLoop, none⟩ :=
      RelayStep.exitLoop _ rfl rfl rfl
    have h3 : RelayStep (⟨[], [], [], obs ++ q, ConsPc.afterLoop, none⟩ : RelayState)
        ⟨[], [], [], obs ++ q, ConsPc.done, some RelayReport.resultMissing⟩ :=
      RelayStep.getResult _ rfl
    exact (h1.tail h2).tail h3

/-- Witness for C3 at a concrete stuck state (thread dead, one event
still queued, result queue empty): the error-reporting final state is
reached. -/
theorem polling_result_missing_error_witness :
    RelayReach ⟨[], [ProgressEvent.finished], [], [], ConsPc.inLoop, none⟩
      ⟨[], [], [], [] ++ [ProgressEvent.finished], ConsPc.done,
        some RelayReport.resultMissing⟩ :=
  (polling_result_missing_error [ProgressEvent.finished] []).2.2.1
